import Mathlib

/-!
Verification of the quantum-synchrotron lookup-table core
(`quantum_sync_engine_tables.hpp` of the picsar repository).

The scalar type `RealType` is modelled by `ℝ`, with `std::log` / `std::exp`
modelled by `Real.log` / `Real.exp`.  The value containers (`VectorType`,
`picsar_span`) are modelled by `List ℝ`.  The C++ output parameter
`bool* is_out` is modelled by an `Option Bool` threaded through the call
(`none` models a null pointer).  Fallible operations (constructors that
throw, `serialize`, `get_view`) return `Except TableError`.

The helper headers of the repository (`picsar_tables.hpp`,
`picsar_algo.hpp`, `serialization.hpp`) are not part of the provided
source tree; the definitions that stand for them are modelled from the
specification and are marked as such in their doc comments.
-/

namespace PicsarQS

/-- Model of `math::m_log` (natural logarithm of a scalar). -/
noncomputable def m_log (x : ℝ) : ℝ := Real.log x

/-- Model of `math::m_exp` (exponential of a scalar). -/
noncomputable def m_exp (x : ℝ) : ℝ := Real.exp x

/-- Modelled from the spec: `utils::linear_interp` (from `picsar_algo.hpp`,
which is outside `src/`): linear interpolation between the two bracketing
points `(x0, y0)` and `(x1, y1)`, evaluated at `x`. -/
noncomputable def linear_interp (x0 x1 y0 y1 x : ℝ) : ℝ :=
  y0 + (y1 - y0) * (x - x0) / (x1 - x0)

/-- Auxiliary linear scan realizing an upper-bound search: starting at
`first`, inspect `n` consecutive indices and stop at the first one whose
value reaches `val`. -/
noncomputable def upper_bound_aux (val : ℝ) (f : ℕ → ℝ) : ℕ → ℕ → ℕ
  | first, 0 => first
  | first, n+1 => if val ≤ f first then first else upper_bound_aux val f (first+1) n

/-- Modelled from the spec: `utils::picsar_upper_bound_functor` (from
`picsar_algo.hpp`, which is outside `src/`): the upper-bound search over a
lazily evaluated monotone function, returning the first index in
`[first, last)` at which the function value reaches `val`, or `last`
when no such index exists. -/
noncomputable def picsar_upper_bound_functor
    (first last : ℕ) (val : ℝ) (f : ℕ → ℝ) : ℕ :=
  upper_bound_aux val f first (last - first)

/-- The error taxonomy of the table core (spec section 7).  The C++ code
throws `std::runtime_error` with distinct messages; the model
distinguishes the conditions by constructor.  `typeConfusion` is a model
artifact: it marks a read of a serialized field at a type other than the
one that was written, a situation the byte-reinterpreting C++ code cannot
detect and the typed model cannot represent. -/
inductive TableError where
  | truncated
  | formatMismatch
  | typeConfusion
  | invalidState

/-- Modelled from the spec: a serialized byte buffer (`std::vector<char>`)
is modelled as a list of typed cells, each knowing the byte width it
occupies: a raw byte, a C++ `int` (4 bytes), or a scalar written with a
given byte width `sz` (`sizeof(RealType)` of the writing context). -/
inductive Cell where
  | byte (b : ℕ)
  | intc (n : ℤ)
  | real (sz : ℕ) (r : ℝ)

/-- The number of bytes a cell occupies in the serialized buffer. -/
def cellSize : Cell → ℕ
  | .byte _ => 1
  | .intc _ => 4
  | .real sz _ => sz

/-- The byte length of a serialized buffer. -/
def cells_byte_size (l : List Cell) : ℕ := (l.map cellSize).sum

/-- Modelled from the spec: `serialization::get_out<char>`: read one raw
byte from the front of the buffer. -/
def get_out_byte : List Cell → Except TableError (ℕ × List Cell)
  | .byte b :: rest => .ok (b, rest)
  | _ => .error .typeConfusion

/-- Modelled from the spec: `serialization::get_out<int>`: read one C++
`int` from the front of the buffer. -/
def get_out_int : List Cell → Except TableError (ℤ × List Cell)
  | .intc n :: rest => .ok (n, rest)
  | _ => .error .typeConfusion

/-- Modelled from the spec: `serialization::get_out<RealType>`: read one
scalar of byte width `rs` from the front of the buffer. -/
def get_out_real (rs : ℕ) : List Cell → Except TableError (ℝ × List Cell)
  | .real sz r :: rest => if sz = rs then .ok (r, rest) else .error .typeConfusion
  | _ => .error .typeConfusion

/-- Read `n` consecutive scalars of byte width `rs` from the buffer. -/
def get_reals (rs : ℕ) : ℕ → List Cell → Except TableError (List ℝ × List Cell)
  | 0, rest => .ok ([], rest)
  | n+1, cs => do
      let (r, rest) ← get_out_real rs cs
      let (more, rest2) ← get_reals rs n rest
      .ok (r :: more, rest2)

/-- Modelled from the spec: `containers::equispaced_1d_table` (from
`picsar_tables.hpp`, which is outside `src/`): a fixed-size ordered
sequence of samples over a log-spaced axis `[x_min, x_max]`.  The sample
count (`m_how_many`) always equals the length of the value sequence, so
the model derives it from `values`. -/
structure equispaced_1d_table where
  x_min : ℝ
  x_max : ℝ
  values : List ℝ

/-- The number of grid points of the 1D table (`get_how_many_x`). -/
def equispaced_1d_table.get_how_many_x (tab : equispaced_1d_table) : ℕ :=
  tab.values.length

/-- The coordinate of grid point `i` of the 1D table, by uniform-spacing
arithmetic. -/
noncomputable def equispaced_1d_table.get_x_coord
    (tab : equispaced_1d_table) (i : ℕ) : ℝ :=
  tab.x_min + i * (tab.x_max - tab.x_min) / ((tab.values.length : ℝ) - 1)

/-- Modelled from the spec: 1D interpolation: locate the two bracketing
grid points by uniform-spacing arithmetic (the left index is clamped into
`[0, N-2]` so that the right neighbour exists, as at the exact upper grid
point) and linearly interpolate between their stored values.  The caller
is responsible for clamping `x` into the axis range. -/
noncomputable def equispaced_1d_table.interp
    (tab : equispaced_1d_table) (x : ℝ) : ℝ :=
  let n := tab.values.length
  let raw := ⌊((n : ℝ) - 1) * (x - tab.x_min) / (tab.x_max - tab.x_min)⌋
  let il := min (max raw 0).toNat (n - 2)
  linear_interp (tab.get_x_coord il) (tab.get_x_coord (il+1))
    (tab.values.getD il 0) (tab.values.getD (il+1) 0) x

/-- The operator== of the 1D table: equal bounds and equal sample
sequence. -/
def equispaced_1d_table.eqOp (a b : equispaced_1d_table) : Prop :=
  a.x_min = b.x_min ∧ a.x_max = b.x_max ∧ a.values = b.values

/-- Modelled from the spec: the binary serialization of the 1D table: its
axis bounds and resolution followed by the raw sample sequence. -/
def equispaced_1d_table.serialize_cells
    (tab : equispaced_1d_table) (rs : ℕ) : List Cell :=
  Cell.real rs tab.x_min :: Cell.real rs tab.x_max ::
    Cell.intc tab.values.length :: tab.values.map (Cell.real rs)

/-- Modelled from the spec: the byte-buffer constructor of the 1D table:
read the bounds and the resolution, then that many samples. -/
def table1d_from_raw (rs : ℕ) (raw : List Cell) :
    Except TableError equispaced_1d_table := do
  let (xmin, r1) ← get_out_real rs raw
  let (xmax, r2) ← get_out_real rs r1
  let (n, r3) ← get_out_int r2
  let (vals, _) ← get_reals rs n.toNat r3
  .ok ⟨xmin, xmax, vals⟩

/-- Modelled from the spec: `containers::equispaced_2d_table` (from
`picsar_tables.hpp`, which is outside `src/`): a row-major grid over two
log-spaced axes; the second axis varies fastest. -/
structure equispaced_2d_table where
  x_min : ℝ
  x_max : ℝ
  y_min : ℝ
  y_max : ℝ
  how_many_x : ℕ
  how_many_y : ℕ
  values : List ℝ

/-- The stored sample at grid position `(i, j)` in row-major order. -/
def equispaced_2d_table.get_val
    (tab : equispaced_2d_table) (i j : ℕ) : ℝ :=
  tab.values.getD (i * tab.how_many_y + j) 0

/-- The exact log-space coordinate of axis-2 grid point `j`
(`get_y_coord`), by uniform-spacing arithmetic. -/
noncomputable def equispaced_2d_table.get_y_coord
    (tab : equispaced_2d_table) (j : ℕ) : ℝ :=
  tab.y_min + j * (tab.y_max - tab.y_min) / ((tab.how_many_y : ℝ) - 1)

/-- Modelled from the spec: `interp_first_coord`: for a fixed index `j`
along axis 2, interpolate along axis 1 exactly as in the 1D case, using
row `j` of the grid. -/
noncomputable def equispaced_2d_table.interp_first_coord
    (tab : equispaced_2d_table) (x : ℝ) (j : ℕ) : ℝ :=
  let raw := ⌊((tab.how_many_x : ℝ) - 1) * (x - tab.x_min) / (tab.x_max - tab.x_min)⌋
  let il := min (max raw 0).toNat (tab.how_many_x - 2)
  linear_interp
    (tab.x_min + il * (tab.x_max - tab.x_min) / ((tab.how_many_x : ℝ) - 1))
    (tab.x_min + (il+1) * (tab.x_max - tab.x_min) / ((tab.how_many_x : ℝ) - 1))
    (tab.get_val il j) (tab.get_val (il+1) j) x

/-- The operator== of the 2D table: equal bounds, resolutions and sample
sequence. -/
def equispaced_2d_table.eqOp (a b : equispaced_2d_table) : Prop :=
  a.x_min = b.x_min ∧ a.x_max = b.x_max ∧ a.y_min = b.y_min ∧
  a.y_max = b.y_max ∧ a.how_many_x = b.how_many_x ∧
  a.how_many_y = b.how_many_y ∧ a.values = b.values

/-- Modelled from the spec: the binary serialization of the 2D table: its
axis bounds and resolutions followed by the raw sample sequence in
row-major order. -/
def equispaced_2d_table.serialize_cells
    (tab : equispaced_2d_table) (rs : ℕ) : List Cell :=
  Cell.real rs tab.x_min :: Cell.real rs tab.x_max ::
    Cell.real rs tab.y_min :: Cell.real rs tab.y_max ::
    Cell.intc tab.how_many_x :: Cell.intc tab.how_many_y ::
    tab.values.map (Cell.real rs)

/-- Modelled from the spec: the byte-buffer constructor of the 2D table. -/
def table2d_from_raw (rs : ℕ) (raw : List Cell) :
    Except TableError equispaced_2d_table := do
  let (xmin, r1) ← get_out_real rs raw
  let (xmax, r2) ← get_out_real rs r1
  let (ymin, r3) ← get_out_real rs r2
  let (ymax, r4) ← get_out_real rs r3
  let (nx, r5) ← get_out_int r4
  let (ny, r6) ← get_out_int r5
  let (vals, _) ← get_reals rs (nx.toNat * ny.toNat) r6
  .ok ⟨xmin, xmax, ymin, ymax, nx.toNat, ny.toNat, vals⟩

/-- `dndt_lookup_table_params`: the parameter record of the rate table.
The C++ `int` count holds a positive number of grid points (spec
section 3), modelled as `ℕ`. -/
structure dndt_lookup_table_params where
  chi_part_min : ℝ
  chi_part_max : ℝ
  chi_part_how_many : ℕ

/-- `dndt_lookup_table_params::operator==`: exact field-wise equality. -/
def dndt_lookup_table_params.eqOp (a b : dndt_lookup_table_params) : Prop :=
  a.chi_part_min = b.chi_part_min ∧ a.chi_part_max = b.chi_part_max ∧
  a.chi_part_how_many = b.chi_part_how_many

/-- `dndt_lookup_table`: parameters, initialization flag and the inner 1D
table. -/
structure dndt_lookup_table where
  m_params : dndt_lookup_table_params
  m_init_flag : Bool
  m_table : equispaced_1d_table

/-- The `dndt_lookup_table(params)` constructor: the inner table spans
`[log(chi_part_min), log(chi_part_max)]` with `chi_part_how_many`
default-initialized (zero) samples; the table is uninitialized. -/
noncomputable def dndt_lookup_table.mk_of_params
    (p : dndt_lookup_table_params) : dndt_lookup_table :=
  ⟨p, false, ⟨m_log p.chi_part_min, m_log p.chi_part_max,
    List.replicate p.chi_part_how_many 0⟩⟩

/-- The `dndt_lookup_table(params, vals)` constructor: same bounds, the
given samples, and the initialization flag set. -/
noncomputable def dndt_lookup_table.mk_of_vals
    (p : dndt_lookup_table_params) (vals : List ℝ) : dndt_lookup_table :=
  ⟨p, true, ⟨m_log p.chi_part_min, m_log p.chi_part_max, vals⟩⟩

/-- `dndt_lookup_table::operator==`: equal parameters, equal
initialization flag, equal inner table. -/
def dndt_lookup_table.eqOp (a b : dndt_lookup_table) : Prop :=
  a.m_params.eqOp b.m_params ∧ a.m_init_flag = b.m_init_flag ∧
  a.m_table.eqOp b.m_table

/-- The clamping of `chi_part` into `[chi_part_min, chi_part_max]`
performed at the top of both `interp` methods. -/
noncomputable def clamp_chi (pmin pmax chi_part : ℝ) : ℝ :=
  if chi_part < pmin then pmin
  else if chi_part > pmax then pmax
  else chi_part

/-- The effect of `if (is_out != nullptr) *is_out = true;`. -/
def write_true : Option Bool → Option Bool
  | none => none
  | some _ => some true

/-- The effect of both `interp` methods on the `is_out` output parameter:
on either out-of-range branch the pointed-to flag (when the pointer is
non-null) is set to `true`; otherwise it is not touched. -/
noncomputable def out_after (pmin pmax chi_part : ℝ) (is_out : Option Bool) : Option Bool :=
  if chi_part < pmin then write_true is_out
  else if chi_part > pmax then write_true is_out
  else is_out

/-- `dndt_lookup_table::interp`: clamp `chi_part` into the table range
(recording the clamping through `is_out`), then return
`exp(table.interp(log(clamped)))`. -/
noncomputable def dndt_lookup_table.interp (t : dndt_lookup_table)
    (chi_part : ℝ) (is_out : Option Bool) : ℝ × Option Bool :=
  (m_exp (t.m_table.interp
      (m_log (clamp_chi t.m_params.chi_part_min t.m_params.chi_part_max chi_part))),
   out_after t.m_params.chi_part_min t.m_params.chi_part_max chi_part is_out)

/-- `dndt_lookup_table::get_view`: fails on an uninitialized table;
otherwise builds a view table from the same parameters and a non-owning
span of `chi_part_how_many` backing samples. -/
noncomputable def dndt_lookup_table.get_view (t : dndt_lookup_table) :
    Except TableError dndt_lookup_table :=
  if t.m_init_flag = false then .error .invalidState
  else .ok (dndt_lookup_table.mk_of_vals t.m_params
    (t.m_table.values.take t.m_params.chi_part_how_many))

/-- `dndt_lookup_table::set_all_vals`: when the input length matches the
grid resolution, store the natural log of every value and set the
initialization flag; otherwise report failure and change nothing. -/
noncomputable def dndt_lookup_table.set_all_vals (t : dndt_lookup_table)
    (vals : List ℝ) : Bool × dndt_lookup_table :=
  if vals.length = t.m_table.get_how_many_x then
    (true, ⟨t.m_params, true,
      ⟨t.m_table.x_min, t.m_table.x_max, vals.map m_log⟩⟩)
  else (false, t)

/-- The serialized form of `dndt_lookup_table_params` (field order of
the record). -/
def dndt_params_cells (rs : ℕ) (p : dndt_lookup_table_params) : List Cell :=
  [Cell.real rs p.chi_part_min, Cell.real rs p.chi_part_max,
   Cell.intc p.chi_part_how_many]

/-- `sizeof(dndt_lookup_table_params)`: two scalars and one 4-byte int. -/
def sizeof_dndt_params (rs : ℕ) : ℕ := rs + rs + 4

/-- `dndt_lookup_table::serialize`: fails on an uninitialized table;
otherwise writes the scalar-size tag byte, the parameter record, and the
inner table's own serialization. -/
def dndt_lookup_table.serialize (t : dndt_lookup_table) (rs : ℕ) :
    Except TableError (List Cell) :=
  if t.m_init_flag = false then .error .invalidState
  else .ok (Cell.byte rs ::
    (dndt_params_cells rs t.m_params ++ t.m_table.serialize_cells rs))

/-- `dndt_lookup_table(raw_data)`: fail with a truncated-data error when
the buffer is shorter than `1 + sizeof(params)` bytes; read the tag byte
and fail with a format-mismatch error when it differs from
`sizeof(RealType)` of the reading context; then read the parameter record
and hand the remaining buffer to the inner table's byte constructor.  The
resulting table is initialized. -/
def dndt_table_from_raw (rs : ℕ) (raw : List Cell) :
    Except TableError dndt_lookup_table :=
  if cells_byte_size raw < 1 + sizeof_dndt_params rs then .error .truncated
  else do
    let (tag, r1) ← get_out_byte raw
    if tag = rs then do
      let (pmin, r2) ← get_out_real rs r1
      let (pmax, r3) ← get_out_real rs r2
      let (hm, r4) ← get_out_int r3
      let tab ← table1d_from_raw rs r4
      .ok ⟨⟨pmin, pmax, hm.toNat⟩, true, tab⟩
    else .error .formatMismatch

/-- `photon_emission_lookup_table_params`: the parameter record of the
cumulative-distribution table. -/
structure photon_emission_lookup_table_params where
  chi_part_min : ℝ
  chi_part_max : ℝ
  frac_min : ℝ
  chi_part_how_many : ℕ
  frac_how_many : ℕ

/-- `photon_emission_lookup_table_params::operator==`: exact field-wise
equality. -/
def photon_emission_lookup_table_params.eqOp
    (a b : photon_emission_lookup_table_params) : Prop :=
  a.chi_part_min = b.chi_part_min ∧ a.chi_part_max = b.chi_part_max ∧
  a.frac_min = b.frac_min ∧ a.chi_part_how_many = b.chi_part_how_many ∧
  a.frac_how_many = b.frac_how_many

/-- `photon_emission_lookup_table`: parameters, initialization flag and
the inner 2D table. -/
structure photon_emission_lookup_table where
  m_params : photon_emission_lookup_table_params
  m_init_flag : Bool
  m_table : equispaced_2d_table

/-- The `photon_emission_lookup_table(params)` constructor: the inner
grid spans `[log(chi_part_min), log(chi_part_max)]` along axis 1 and
`[log(frac_min), log(1)]` along axis 2, with
`chi_part_how_many * frac_how_many` default-initialized (zero) samples;
the table is uninitialized. -/
noncomputable def photon_emission_lookup_table.mk_of_params
    (p : photon_emission_lookup_table_params) : photon_emission_lookup_table :=
  ⟨p, false, ⟨m_log p.chi_part_min, m_log p.chi_part_max,
    m_log p.frac_min, m_log 1, p.chi_part_how_many, p.frac_how_many,
    List.replicate (p.chi_part_how_many * p.frac_how_many) 0⟩⟩

/-- The `photon_emission_lookup_table(params, vals)` constructor: same
bounds, the given samples, and the initialization flag set. -/
noncomputable def photon_emission_lookup_table.mk_of_vals
    (p : photon_emission_lookup_table_params) (vals : List ℝ) :
    photon_emission_lookup_table :=
  ⟨p, true, ⟨m_log p.chi_part_min, m_log p.chi_part_max,
    m_log p.frac_min, m_log 1, p.chi_part_how_many, p.frac_how_many, vals⟩⟩

/-- `photon_emission_lookup_table::operator==`: equal parameters, equal
initialization flag, equal inner table. -/
def photon_emission_lookup_table.eqOp
    (a b : photon_emission_lookup_table) : Prop :=
  a.m_params.eqOp b.m_params ∧ a.m_init_flag = b.m_init_flag ∧
  a.m_table.eqOp b.m_table

/-- The upper-bound search of `photon_emission_lookup_table::interp`:
the first fraction-axis index at which the log-probability interpolated
at the clamped `log(chi_part)` reaches `log_prob`, or `frac_how_many`
when none does. -/
noncomputable def photon_upper_frac_index (t : photon_emission_lookup_table)
    (log_e_chi_part log_prob : ℝ) : ℕ :=
  picsar_upper_bound_functor 0 t.m_params.frac_how_many log_prob
    (fun i => t.m_table.interp_first_coord log_e_chi_part i)

/-- The log-log interpolation step of
`photon_emission_lookup_table::interp`: recover `log_frac` by linear
interpolation between the bracketing fraction grid points, driven by the
interpolated log-probabilities at those points. -/
noncomputable def photon_log_frac (t : photon_emission_lookup_table)
    (log_e_chi_part log_prob : ℝ) : ℝ :=
  let upper_frac_index := photon_upper_frac_index t log_e_chi_part log_prob
  let lower_frac_index := upper_frac_index - 1
  linear_interp
    (t.m_table.interp_first_coord log_e_chi_part lower_frac_index)
    (t.m_table.interp_first_coord log_e_chi_part upper_frac_index)
    (t.m_table.get_y_coord lower_frac_index)
    (t.m_table.get_y_coord upper_frac_index)
    log_prob

/-- `photon_emission_lookup_table::interp`: clamp `chi_part` into the
table range (recording the clamping through `is_out`), upper-bound search
the fraction axis for `log_prob = log(1 - u)`; return
`frac_min * chi_part` when the search lands at index 0, `chi_part` itself
when it lands at the one-past-last index, and
`exp(log_frac) * chi_part` otherwise. -/
noncomputable def photon_emission_lookup_table.interp
    (t : photon_emission_lookup_table)
    (chi_part unf_zero_one_minus_epsi : ℝ) (is_out : Option Bool) :
    ℝ × Option Bool :=
  let e_chi_part := clamp_chi t.m_params.chi_part_min t.m_params.chi_part_max chi_part
  let out := out_after t.m_params.chi_part_min t.m_params.chi_part_max chi_part is_out
  let log_e_chi_part := m_log e_chi_part
  let log_prob := m_log (1 - unf_zero_one_minus_epsi)
  let upper_frac_index := photon_upper_frac_index t log_e_chi_part log_prob
  if upper_frac_index = 0 then (t.m_params.frac_min * chi_part, out)
  else if upper_frac_index = t.m_params.frac_how_many then (chi_part, out)
  else (m_exp (photon_log_frac t log_e_chi_part log_prob) * chi_part, out)

/-- The fraction of `chi_part` sampled by
`photon_emission_lookup_table::interp`, as a function of the clamped
coordinate only: `frac_min` at search index 0, `1` at the one-past-last
index, `exp(log_frac)` in between. -/
noncomputable def photon_sample_frac (t : photon_emission_lookup_table)
    (log_e_chi_part log_prob : ℝ) : ℝ :=
  let upper_frac_index := photon_upper_frac_index t log_e_chi_part log_prob
  if upper_frac_index = 0 then t.m_params.frac_min
  else if upper_frac_index = t.m_params.frac_how_many then 1
  else m_exp (photon_log_frac t log_e_chi_part log_prob)

/-- `photon_emission_lookup_table::get_view`: fails on an uninitialized
table; otherwise builds a view table from the same parameters and a
non-owning span of `chi_part_how_many * frac_how_many` backing samples. -/
noncomputable def photon_emission_lookup_table.get_view
    (t : photon_emission_lookup_table) :
    Except TableError photon_emission_lookup_table :=
  if t.m_init_flag = false then .error .invalidState
  else .ok (photon_emission_lookup_table.mk_of_vals t.m_params
    (t.m_table.values.take
      (t.m_params.chi_part_how_many * t.m_params.frac_how_many)))

/-- `photon_emission_lookup_table::set_all_vals`: when the input length
matches the grid resolution, store the natural log of every value --
except that a value whose log is infinite (a physical value of exactly
zero, whose IEEE log is negative infinity) is stored as
`numeric_limits<RealType>::lowest()` -- and set the initialization flag;
otherwise report failure and change nothing.  `ℝ` has no infinities and
no smallest finite element, so `std::isinf(m_log v)` at a finite
nonnegative physical value is modelled by `v = 0` and the substituted
`lowest()` by the explicit argument `lowest_val`. -/
noncomputable def photon_emission_lookup_table.set_all_vals
    (t : photon_emission_lookup_table) (lowest_val : ℝ) (vals : List ℝ) :
    Bool × photon_emission_lookup_table :=
  if vals.length = t.m_table.how_many_x * t.m_table.how_many_y then
    (true, ⟨t.m_params, true,
      ⟨t.m_table.x_min, t.m_table.x_max, t.m_table.y_min, t.m_table.y_max,
       t.m_table.how_many_x, t.m_table.how_many_y,
       vals.map (fun v => if v = 0 then lowest_val else m_log v)⟩⟩)
  else (false, t)

/-- The serialized form of `photon_emission_lookup_table_params` (field
order of the record). -/
def photon_params_cells (rs : ℕ)
    (p : photon_emission_lookup_table_params) : List Cell :=
  [Cell.real rs p.chi_part_min, Cell.real rs p.chi_part_max,
   Cell.real rs p.frac_min, Cell.intc p.chi_part_how_many,
   Cell.intc p.frac_how_many]

/-- `sizeof(photon_emission_lookup_table_params)`: three scalars and two
4-byte ints. -/
def sizeof_photon_params (rs : ℕ) : ℕ := rs + rs + rs + 4 + 4

/-- `photon_emission_lookup_table::serialize`: fails on an uninitialized
table; otherwise writes the scalar-size tag byte, the parameter record,
and the inner table's own serialization. -/
def photon_emission_lookup_table.serialize
    (t : photon_emission_lookup_table) (rs : ℕ) :
    Except TableError (List Cell) :=
  if t.m_init_flag = false then .error .invalidState
  else .ok (Cell.byte rs ::
    (photon_params_cells rs t.m_params ++ t.m_table.serialize_cells rs))

/-- `photon_emission_lookup_table(raw_data)`: fail with a truncated-data
error when the buffer is shorter than `1 + sizeof(params)` bytes; read
the tag byte and fail with a format-mismatch error when it differs from
`sizeof(RealType)` of the reading context; then read the parameter record
and hand the remaining buffer to the inner table's byte constructor.  The
resulting table is initialized. -/
def photon_table_from_raw (rs : ℕ) (raw : List Cell) :
    Except TableError photon_emission_lookup_table :=
  if cells_byte_size raw < 1 + sizeof_photon_params rs then .error .truncated
  else do
    let (tag, r1) ← get_out_byte raw
    if tag = rs then do
      let (pmin, r2) ← get_out_real rs r1
      let (pmax, r3) ← get_out_real rs r2
      let (fmin, r4) ← get_out_real rs r3
      let (hmc, r5) ← get_out_int r4
      let (hmf, r6) ← get_out_int r5
      let tab ← table2d_from_raw rs r6
      .ok ⟨⟨pmin, pmax, fmin, hmc.toNat, hmf.toNat⟩, true, tab⟩
    else .error .formatMismatch

/-- A small concrete photon-emission table used to exercise the
inverse-CDF sampling on explicit inputs: degenerate unit bounds
(`chi_part_min = chi_part_max = frac_min = 1`), a 2-by-2 grid, and
all-zero stored log-probabilities. -/
noncomputable def witness_photon_table : photon_emission_lookup_table :=
  photon_emission_lookup_table.mk_of_vals ⟨1, 1, 1, 2, 2⟩ [0, 0, 0, 0]

/-- A small concrete rate table used to exercise clamping and shape
validation on explicit inputs: bounds `[1, 2]`, two grid points,
all-zero stored log-rates. -/
noncomputable def witness_dndt_table : dndt_lookup_table :=
  dndt_lookup_table.mk_of_vals ⟨1, 2, 2⟩ [0, 0]

/-- The upper-bound scan never returns an index below its starting
point. -/
theorem upper_bound_aux_ge (val : ℝ) (f : ℕ → ℝ) :
    ∀ (n first : ℕ), first ≤ upper_bound_aux val f first n := by
  intro n
  induction n with
  | zero => intro first; simp [upper_bound_aux]
  | succ n ih =>
      intro first
      by_cases h : val ≤ f first
      · simp [upper_bound_aux, h]
      · simp only [upper_bound_aux, if_neg h]
        exact le_trans (Nat.le_succ first) (ih (first+1))

/-- The upper-bound scan never returns an index beyond one past the
scanned range. -/
theorem upper_bound_aux_le (val : ℝ) (f : ℕ → ℝ) :
    ∀ (n first : ℕ), upper_bound_aux val f first n ≤ first + n := by
  intro n
  induction n with
  | zero => intro first; simp [upper_bound_aux]
  | succ n ih =>
      intro first
      by_cases h : val ≤ f first
      · simp [upper_bound_aux, h]
      · simp only [upper_bound_aux, if_neg h]
        have := ih (first+1)
        omega

/-- When the upper-bound scan stops strictly inside the scanned range,
the value at the returned index reaches the target. -/
theorem upper_bound_aux_found (val : ℝ) (f : ℕ → ℝ) :
    ∀ (n first : ℕ), upper_bound_aux val f first n < first + n →
      val ≤ f (upper_bound_aux val f first n) := by
  intro n
  induction n with
  | zero => intro first h; exact absurd h (by simp [upper_bound_aux])
  | succ n ih =>
      intro first h
      by_cases hf : val ≤ f first
      · simp only [upper_bound_aux, if_pos hf]
        exact hf
      · simp only [upper_bound_aux, if_neg hf] at h ⊢
        exact ih (first+1) (by omega)

/-- Every index before the one the upper-bound scan returns has a value
strictly below the target. -/
theorem upper_bound_aux_before (val : ℝ) (f : ℕ → ℝ) :
    ∀ (n first i : ℕ), first ≤ i → i < upper_bound_aux val f first n →
      ¬ val ≤ f i := by
  intro n
  induction n with
  | zero =>
      intro first i h1 h2
      simp [upper_bound_aux] at h2; omega
  | succ n ih =>
      intro first i h1 h2
      by_cases hf : val ≤ f first
      · simp [upper_bound_aux, hf] at h2; omega
      · simp only [upper_bound_aux, if_neg hf] at h2
        rcases Nat.eq_or_lt_of_le h1 with rfl | hlt
        · exact hf
        · exact ih (first+1) i hlt h2

/-- The search of `picsar_upper_bound_functor 0 last` stays within
`[0, last]`. -/
theorem picsar_upper_bound_le (last : ℕ) (val : ℝ) (f : ℕ → ℝ) :
    picsar_upper_bound_functor 0 last val f ≤ last := by
  have := upper_bound_aux_le val f (last - 0) 0
  simpa [picsar_upper_bound_functor] using this

/-- When the search of `picsar_upper_bound_functor 0 last` lands strictly
inside the range, the value there reaches the target. -/
theorem picsar_upper_bound_found (last : ℕ) (val : ℝ) (f : ℕ → ℝ)
    (h : picsar_upper_bound_functor 0 last val f < last) :
    val ≤ f (picsar_upper_bound_functor 0 last val f) := by
  have := upper_bound_aux_found val f (last - 0) 0
  simp only [Nat.sub_zero, Nat.zero_add] at this
  simpa [picsar_upper_bound_functor] using this (by simpa [picsar_upper_bound_functor] using h)

/-- Every index before the one returned by
`picsar_upper_bound_functor 0 last` has a value strictly below the
target. -/
theorem picsar_upper_bound_before (last : ℕ) (val : ℝ) (f : ℕ → ℝ)
    (i : ℕ) (h : i < picsar_upper_bound_functor 0 last val f) :
    f i < val := by
  have := upper_bound_aux_before val f (last - 0) 0 i (Nat.zero_le i)
    (by simpa [picsar_upper_bound_functor] using h)
  exact lt_of_not_le this

/-- Byte sizes add across buffer concatenation. -/
theorem cells_byte_size_append (a b : List Cell) :
    cells_byte_size (a ++ b) = cells_byte_size a + cells_byte_size b := by
  simp [cells_byte_size]

/-- Reduction of monadic bind on a successful `Except` computation. -/
theorem except_ok_bind {ε α β : Type} (a : α) (f : α → Except ε β) :
    (Except.ok a : Except ε α) >>= f = f a := rfl

/-- Reading back exactly the scalars that were written recovers them and
leaves the remainder of the buffer untouched. -/
theorem get_reals_roundtrip (rs : ℕ) (l : List ℝ) (rest : List Cell) :
    get_reals rs l.length (l.map (Cell.real rs) ++ rest) = .ok (l, rest) := by
  induction l with
  | nil => simp [get_reals]
  | cons x xs ih => simp [get_reals, get_out_real, ih, except_ok_bind]

/-- The 1D table's byte constructor inverts its serialization. -/
theorem table1d_roundtrip (rs : ℕ) (tab : equispaced_1d_table) :
    table1d_from_raw rs (tab.serialize_cells rs) = .ok tab := by
  have h := get_reals_roundtrip rs tab.values []
  rw [List.append_nil] at h
  simp [table1d_from_raw, equispaced_1d_table.serialize_cells,
    get_out_real, get_out_int, except_ok_bind, h]

/-- The 2D table's byte constructor inverts its serialization, for a
table whose sample count matches its grid resolution. -/
theorem table2d_roundtrip (rs : ℕ) (tab : equispaced_2d_table)
    (hlen : tab.values.length = tab.how_many_x * tab.how_many_y) :
    table2d_from_raw rs (tab.serialize_cells rs) = .ok tab := by
  have h := get_reals_roundtrip rs tab.values []
  rw [List.append_nil, hlen] at h
  simp [table2d_from_raw, equispaced_2d_table.serialize_cells,
    get_out_real, get_out_int, except_ok_bind, h]

/-- Claim C2: for every initialized table of either kind, deserializing
the byte buffer produced by `serialize` yields a table equal to the
original under `operator==` (equal parameters, equal initialization
flag, equal full sample sequence), for every scalar byte width `rs` --
in particular for both supported precisions (4 and 8). -/
theorem serialize_deserialize_roundtrip (rs : ℕ)
    (td : dndt_lookup_table) (hd : td.m_init_flag = true)
    (tp : photon_emission_lookup_table) (hp : tp.m_init_flag = true)
    (hlen : tp.m_table.values.length =
      tp.m_table.how_many_x * tp.m_table.how_many_y) :
    (∃ buf td2, td.serialize rs = .ok buf ∧
      dndt_table_from_raw rs buf = .ok td2 ∧ td2.eqOp td) ∧
    (∃ buf tp2, tp.serialize rs = .ok buf ∧
      photon_table_from_raw rs buf = .ok tp2 ∧ tp2.eqOp tp) := by
  constructor
  · have hser : td.serialize rs = .ok (Cell.byte rs ::
        (dndt_params_cells rs td.m_params ++ td.m_table.serialize_cells rs)) := by
      simp [dndt_lookup_table.serialize, hd]
    refine ⟨_, td, hser, ?_, ?_⟩
    · have hbig : ¬ cells_byte_size (Cell.byte rs ::
          (dndt_params_cells rs td.m_params ++ td.m_table.serialize_cells rs)) <
          1 + sizeof_dndt_params rs := by
        have h1 : cells_byte_size (Cell.byte rs ::
            (dndt_params_cells rs td.m_params ++ td.m_table.serialize_cells rs)) =
            1 + (rs + (rs + (4 + cells_byte_size (td.m_table.serialize_cells rs)))) := by
          simp [cells_byte_size, dndt_params_cells, cellSize]
        simp only [h1, sizeof_dndt_params]
        omega
      have h1d := table1d_roundtrip rs td.m_table
      simp only [dndt_table_from_raw, if_neg hbig]
      simp [get_out_byte, dndt_params_cells, get_out_real, get_out_int,
        except_ok_bind, h1d, List.cons_append]
      rw [← hd]
    · simp [dndt_lookup_table.eqOp, dndt_lookup_table_params.eqOp,
        equispaced_1d_table.eqOp, hd]
  · have hser : tp.serialize rs = .ok (Cell.byte rs ::
        (photon_params_cells rs tp.m_params ++ tp.m_table.serialize_cells rs)) := by
      simp [photon_emission_lookup_table.serialize, hp]
    refine ⟨_, tp, hser, ?_, ?_⟩
    · have hbig : ¬ cells_byte_size (Cell.byte rs ::
          (photon_params_cells rs tp.m_params ++ tp.m_table.serialize_cells rs)) <
          1 + sizeof_photon_params rs := by
        have h1 : cells_byte_size (Cell.byte rs ::
            (photon_params_cells rs tp.m_params ++ tp.m_table.serialize_cells rs)) =
            1 + (rs + (rs + (rs + (4 + (4 +
              cells_byte_size (tp.m_table.serialize_cells rs)))))) := by
          simp [cells_byte_size, photon_params_cells, cellSize]
        simp only [h1, sizeof_photon_params]
        omega
      have h2d := table2d_roundtrip rs tp.m_table hlen
      simp only [photon_table_from_raw, if_neg hbig]
      simp [get_out_byte, photon_params_cells, get_out_real, get_out_int,
        except_ok_bind, h2d, List.cons_append]
      rw [← hp]
    · simp [photon_emission_lookup_table.eqOp,
        photon_emission_lookup_table_params.eqOp, equispaced_2d_table.eqOp, hp]

/-- A fraction-axis grid coordinate is nonpositive whenever both axis
bounds are nonpositive and the index lies within the grid. -/
theorem get_y_coord_nonpos (tab : equispaced_2d_table) (j : ℕ)
    (hymin : tab.y_min ≤ 0) (hymax : tab.y_max ≤ 0)
    (hj : (j : ℝ) ≤ (tab.how_many_y : ℝ) - 1) :
    tab.get_y_coord j ≤ 0 := by
  rcases lt_trichotomy 0 ((tab.how_many_y : ℝ) - 1) with h | h | h
  · have hne : (tab.how_many_y : ℝ) - 1 ≠ 0 := ne_of_gt h
    have hq0 : (0:ℝ) ≤ (j : ℝ) / ((tab.how_many_y : ℝ) - 1) :=
      div_nonneg (Nat.cast_nonneg j) (le_of_lt h)
    have hq1 : (j : ℝ) / ((tab.how_many_y : ℝ) - 1) ≤ 1 := (div_le_one h).2 hj
    have hrew : tab.get_y_coord j =
        tab.y_min * (1 - (j : ℝ) / ((tab.how_many_y : ℝ) - 1)) +
        tab.y_max * ((j : ℝ) / ((tab.how_many_y : ℝ) - 1)) := by
      unfold equispaced_2d_table.get_y_coord
      field_simp
      ring
    rw [hrew]
    have h1 : tab.y_min * (1 - (j : ℝ) / ((tab.how_many_y : ℝ) - 1)) ≤ 0 :=
      mul_nonpos_of_nonpos_of_nonneg hymin (by linarith)
    have h2 : tab.y_max * ((j : ℝ) / ((tab.how_many_y : ℝ) - 1)) ≤ 0 :=
      mul_nonpos_of_nonpos_of_nonneg hymax hq0
    linarith
  · unfold equispaced_2d_table.get_y_coord
    rw [← h]
    simp [hymin]
  · exact absurd (lt_of_le_of_lt hj h) (not_lt.2 (Nat.cast_nonneg j))

/-- The linear interpolation of two nonpositive ordinates, evaluated
strictly inside the bracketing abscissae, is nonpositive. -/
theorem linear_interp_nonpos (p0 p1 y0 y1 x : ℝ) (hy0 : y0 ≤ 0) (hy1 : y1 ≤ 0)
    (h0 : p0 < x) (h1 : x ≤ p1) : linear_interp p0 p1 y0 y1 x ≤ 0 := by
  have hd : (0:ℝ) < p1 - p0 := by linarith
  have hq0 : (0:ℝ) ≤ (x - p0) / (p1 - p0) := div_nonneg (by linarith) (le_of_lt hd)
  have hq1 : (x - p0) / (p1 - p0) ≤ 1 := (div_le_one hd).2 (by linarith)
  unfold linear_interp
  rw [mul_div_assoc]
  have hrew : y0 + (y1 - y0) * ((x - p0) / (p1 - p0)) =
      y0 * (1 - (x - p0) / (p1 - p0)) + y1 * ((x - p0) / (p1 - p0)) := by ring
  rw [hrew]
  have h1 : y0 * (1 - (x - p0) / (p1 - p0)) ≤ 0 :=
    mul_nonpos_of_nonpos_of_nonneg hy0 (by linarith)
  have h2 : y1 * ((x - p0) / (p1 - p0)) ≤ 0 :=
    mul_nonpos_of_nonpos_of_nonneg hy1 hq0
  linarith

/-- The value component of `photon_emission_lookup_table::interp` is
decided by the three branches on the upper-bound search result. -/
theorem photon_interp_val_branches (t : photon_emission_lookup_table)
    (chi u : ℝ) (io : Option Bool) :
    (t.interp chi u io).1 =
      (if photon_upper_frac_index t
          (m_log (clamp_chi t.m_params.chi_part_min t.m_params.chi_part_max chi))
          (m_log (1 - u)) = 0 then t.m_params.frac_min * chi
       else if photon_upper_frac_index t
          (m_log (clamp_chi t.m_params.chi_part_min t.m_params.chi_part_max chi))
          (m_log (1 - u)) = t.m_params.frac_how_many then chi
       else m_exp (photon_log_frac t
          (m_log (clamp_chi t.m_params.chi_part_min t.m_params.chi_part_max chi))
          (m_log (1 - u))) * chi) := by
  unfold photon_emission_lookup_table.interp
  dsimp only
  split_ifs <;> rfl

/-- The `is_out` component of both `interp` methods is the `out_after`
update of the incoming pointer state. -/
theorem photon_interp_out_component (t : photon_emission_lookup_table)
    (chi u : ℝ) (io : Option Bool) :
    (t.interp chi u io).2 =
      out_after t.m_params.chi_part_min t.m_params.chi_part_max chi io := by
  unfold photon_emission_lookup_table.interp
  dsimp only
  split_ifs <;> rfl

/-- `out_after` either leaves the pointer state alone or performs the
`write_true` update. -/
theorem out_after_cases (pmin pmax chi : ℝ) (io : Option Bool) :
    out_after pmin pmax chi io = io ∨
    out_after pmin pmax chi io = write_true io := by
  unfold out_after
  split_ifs <;> simp

/-- For an in-range argument `out_after` leaves the pointer state
untouched. -/
theorem out_after_in_range (pmin pmax chi : ℝ) (h1 : pmin ≤ chi)
    (h2 : chi ≤ pmax) (io : Option Bool) :
    out_after pmin pmax chi io = io := by
  unfold out_after
  rw [if_neg (not_lt.2 h1), if_neg (not_lt.2 h2)]

/-- When the upper-bound search of the inverse-CDF sampling lands
strictly between 0 and the fraction-axis resolution, the log-log
interpolated `log_frac` is nonpositive, for a table whose fraction-axis
coordinates are nonpositive. -/
theorem photon_log_frac_nonpos (t : photon_emission_lookup_table)
    (lchi lp : ℝ)
    (hymin : t.m_table.y_min ≤ 0) (hymax : t.m_table.y_max ≤ 0)
    (hMy : t.m_table.how_many_y = t.m_params.frac_how_many)
    (hpos : 0 < photon_upper_frac_index t lchi lp)
    (hlt : photon_upper_frac_index t lchi lp < t.m_params.frac_how_many) :
    photon_log_frac t lchi lp ≤ 0 := by
  have hfound : lp ≤ t.m_table.interp_first_coord lchi
      (photon_upper_frac_index t lchi lp) :=
    picsar_upper_bound_found t.m_params.frac_how_many lp
      (fun i => t.m_table.interp_first_coord lchi i) hlt
  have hbefore : t.m_table.interp_first_coord lchi
      (photon_upper_frac_index t lchi lp - 1) < lp :=
    picsar_upper_bound_before t.m_params.frac_how_many lp
      (fun i => t.m_table.interp_first_coord lchi i)
      (photon_upper_frac_index t lchi lp - 1) (Nat.sub_lt hpos Nat.one_pos)
  have hcast1 : ((photon_upper_frac_index t lchi lp : ℕ) : ℝ) ≤
      (t.m_table.how_many_y : ℝ) - 1 := by
    rw [hMy]
    have h1 : photon_upper_frac_index t lchi lp + 1 ≤
        t.m_params.frac_how_many := hlt
    have h2 : ((photon_upper_frac_index t lchi lp : ℕ) : ℝ) + 1 ≤
        (t.m_params.frac_how_many : ℝ) := by exact_mod_cast h1
    linarith
  have hcast0 : (((photon_upper_frac_index t lchi lp - 1 : ℕ)) : ℝ) ≤
      (t.m_table.how_many_y : ℝ) - 1 := by
    rw [hMy]
    have h1 : (photon_upper_frac_index t lchi lp - 1) + 1 ≤
        t.m_params.frac_how_many := by omega
    have h2 : (((photon_upper_frac_index t lchi lp - 1 : ℕ)) : ℝ) + 1 ≤
        (t.m_params.frac_how_many : ℝ) := by exact_mod_cast h1
    linarith
  have hy1 := get_y_coord_nonpos t.m_table
    (photon_upper_frac_index t lchi lp - 1) hymin hymax hcast0
  have hy2 := get_y_coord_nonpos t.m_table
    (photon_upper_frac_index t lchi lp) hymin hymax hcast1
  unfold photon_log_frac
  exact linear_interp_nonpos _ _ _ _ _ hy1 hy2 hbefore hfound

/-- Claim C1: for every photon-emission lookup table (built from its
parameters and a value vector) whose per-row interpolated
log-probabilities are monotone along the fraction axis, every positive
`chi_part` and every uniform draw `u` in `[0,1)`, the inverse-CDF
sampling `interp` returns a value in `[0, chi_part]`: when the
upper-bound search over the fraction axis returns index 0 the value is
`frac_min * chi_part`, when it returns the one-past-last index
(`frac_how_many`) the value is `chi_part` itself, and otherwise it is
`exp(log_frac) * chi_part` with the log-log interpolated `log_frac` at
or below `log 1 = 0`. -/
theorem photon_interp_output_in_range
    (p : photon_emission_lookup_table_params) (vals : List ℝ)
    (t : photon_emission_lookup_table)
    (ht : t = photon_emission_lookup_table.mk_of_vals p vals)
    (chi_part u : ℝ)
    (hmono : ∀ x : ℝ, Monotone (fun i => t.m_table.interp_first_coord x i))
    (hchi : 0 < chi_part) (hu0 : 0 ≤ u) (hu1 : u < 1)
    (hf0 : 0 < t.m_params.frac_min) (hf1 : t.m_params.frac_min ≤ 1)
    (hMpos : 0 < t.m_params.frac_how_many) :
    (0 ≤ (t.interp chi_part u none).1 ∧
      (t.interp chi_part u none).1 ≤ chi_part) ∧
    (photon_upper_frac_index t
        (m_log (clamp_chi t.m_params.chi_part_min t.m_params.chi_part_max chi_part))
        (m_log (1 - u)) = 0 →
      (t.interp chi_part u none).1 = t.m_params.frac_min * chi_part) ∧
    (photon_upper_frac_index t
        (m_log (clamp_chi t.m_params.chi_part_min t.m_params.chi_part_max chi_part))
        (m_log (1 - u)) = t.m_params.frac_how_many →
      (t.interp chi_part u none).1 = chi_part) ∧
    (0 < photon_upper_frac_index t
        (m_log (clamp_chi t.m_params.chi_part_min t.m_params.chi_part_max chi_part))
        (m_log (1 - u)) →
     photon_upper_frac_index t
        (m_log (clamp_chi t.m_params.chi_part_min t.m_params.chi_part_max chi_part))
        (m_log (1 - u)) < t.m_params.frac_how_many →
      photon_log_frac t
        (m_log (clamp_chi t.m_params.chi_part_min t.m_params.chi_part_max chi_part))
        (m_log (1 - u)) ≤ 0 ∧
      (t.interp chi_part u none).1 =
        m_exp (photon_log_frac t
          (m_log (clamp_chi t.m_params.chi_part_min t.m_params.chi_part_max chi_part))
          (m_log (1 - u))) * chi_part) := by
  have hymin : t.m_table.y_min ≤ 0 := by
    have h1 : t.m_table.y_min = m_log t.m_params.frac_min := by rw [ht]; rfl
    rw [h1]
    exact Real.log_nonpos (le_of_lt hf0) hf1
  have hymax : t.m_table.y_max ≤ 0 := by
    have h1 : t.m_table.y_max = m_log 1 := by rw [ht]; rfl
    rw [h1]
    simp [m_log]
  have hMy : t.m_table.how_many_y = t.m_params.frac_how_many := by rw [ht]; rfl
  have hbr := photon_interp_val_branches t chi_part u none
  refine ⟨?_, ?_, ?_, ?_⟩
  · rw [hbr]
    split_ifs with h0 hM
    · constructor
      · exact mul_nonneg (le_of_lt hf0) (le_of_lt hchi)
      · calc t.m_params.frac_min * chi_part ≤ 1 * chi_part :=
              mul_le_mul_of_nonneg_right hf1 (le_of_lt hchi)
          _ = chi_part := one_mul chi_part
    · exact ⟨le_of_lt hchi, le_refl chi_part⟩
    · have hpos : 0 < photon_upper_frac_index t
          (m_log (clamp_chi t.m_params.chi_part_min t.m_params.chi_part_max chi_part))
          (m_log (1 - u)) := Nat.pos_of_ne_zero h0
      have hlt : photon_upper_frac_index t
          (m_log (clamp_chi t.m_params.chi_part_min t.m_params.chi_part_max chi_part))
          (m_log (1 - u)) < t.m_params.frac_how_many :=
        lt_of_le_of_ne
          (picsar_upper_bound_le t.m_params.frac_how_many (m_log (1 - u))
            (fun i => t.m_table.interp_first_coord
              (m_log (clamp_chi t.m_params.chi_part_min t.m_params.chi_part_max chi_part)) i))
          hM
      have hlf := photon_log_frac_nonpos t _ _ hymin hymax hMy hpos hlt
      constructor
      · exact mul_nonneg (le_of_lt (Real.exp_pos _)) (le_of_lt hchi)
      · calc m_exp (photon_log_frac t
              (m_log (clamp_chi t.m_params.chi_part_min t.m_params.chi_part_max chi_part))
              (m_log (1 - u))) * chi_part
              ≤ 1 * chi_part :=
                mul_le_mul_of_nonneg_right (Real.exp_le_one_iff.2 hlf) (le_of_lt hchi)
          _ = chi_part := one_mul chi_part
  · intro h0
    rw [hbr, if_pos h0]
  · intro hM
    have h0 : photon_upper_frac_index t
        (m_log (clamp_chi t.m_params.chi_part_min t.m_params.chi_part_max chi_part))
        (m_log (1 - u)) ≠ 0 := by
      rw [hM]
      omega
    rw [hbr, if_neg h0, if_pos hM]
  · intro hpos hlt
    refine ⟨photon_log_frac_nonpos t _ _ hymin hymax hMy hpos hlt, ?_⟩
    rw [hbr, if_neg (Nat.pos_iff_ne_zero.1 hpos), if_neg (Nat.ne_of_lt hlt)]

/-- Claim C3: for every rate table, an argument below `chi_part_min`
interpolates exactly as `chi_part_min` does and sets a supplied non-null
`is_out` flag to true; symmetrically above `chi_part_max`. -/
theorem dndt_interp_clamps (td : dndt_lookup_table)
    (hmm : td.m_params.chi_part_min ≤ td.m_params.chi_part_max)
    (chi : ℝ) (is_out : Option Bool) (b : Bool) :
    (chi < td.m_params.chi_part_min →
      (td.interp chi is_out).1 = (td.interp td.m_params.chi_part_min is_out).1 ∧
      (td.interp chi (some b)).2 = some true) ∧
    (td.m_params.chi_part_max < chi →
      (td.interp chi is_out).1 = (td.interp td.m_params.chi_part_max is_out).1 ∧
      (td.interp chi (some b)).2 = some true) := by
  have hcmin : clamp_chi td.m_params.chi_part_min td.m_params.chi_part_max
      td.m_params.chi_part_min = td.m_params.chi_part_min := by
    unfold clamp_chi
    rw [if_neg (lt_irrefl _), if_neg (not_lt.2 hmm)]
  have hcmax : clamp_chi td.m_params.chi_part_min td.m_params.chi_part_max
      td.m_params.chi_part_max = td.m_params.chi_part_max := by
    unfold clamp_chi
    rw [if_neg (not_lt.2 hmm), if_neg (lt_irrefl _)]
  constructor
  · intro hlo
    have hc : clamp_chi td.m_params.chi_part_min td.m_params.chi_part_max chi =
        td.m_params.chi_part_min := by
      unfold clamp_chi
      rw [if_pos hlo]
    constructor
    · show m_exp (td.m_table.interp (m_log (clamp_chi td.m_params.chi_part_min
        td.m_params.chi_part_max chi))) = m_exp (td.m_table.interp (m_log
        (clamp_chi td.m_params.chi_part_min td.m_params.chi_part_max
          td.m_params.chi_part_min)))
      rw [hc, hcmin]
    · show out_after td.m_params.chi_part_min td.m_params.chi_part_max chi
        (some b) = some true
      unfold out_after
      rw [if_pos hlo]
      rfl
  · intro hhi
    have hnlo : ¬ chi < td.m_params.chi_part_min := not_lt.2 (le_trans hmm (le_of_lt hhi))
    have hc : clamp_chi td.m_params.chi_part_min td.m_params.chi_part_max chi =
        td.m_params.chi_part_max := by
      unfold clamp_chi
      rw [if_neg hnlo, if_pos hhi]
    constructor
    · show m_exp (td.m_table.interp (m_log (clamp_chi td.m_params.chi_part_min
        td.m_params.chi_part_max chi))) = m_exp (td.m_table.interp (m_log
        (clamp_chi td.m_params.chi_part_min td.m_params.chi_part_max
          td.m_params.chi_part_max)))
      rw [hc, hcmax]
    · show out_after td.m_params.chi_part_min td.m_params.chi_part_max chi
        (some b) = some true
      unfold out_after
      rw [if_neg hnlo, if_pos hhi]
      rfl

/-- Claim C9: neither `interp` ever writes `false` through the `is_out`
output parameter: for an in-range argument the pointer state is left
completely unmodified, the only possible update is the `write_true` one
(so a pointed-to `false` can only survive, never be installed), and a
null pointer stays null (it is never dereferenced). -/
theorem interp_is_out_frame (td : dndt_lookup_table)
    (tp : photon_emission_lookup_table) (chi u : ℝ) (b : Bool) :
    ((td.m_params.chi_part_min ≤ chi ∧ chi ≤ td.m_params.chi_part_max) →
      ∀ io, (td.interp chi io).2 = io) ∧
    (∀ io, (td.interp chi io).2 = io ∨ (td.interp chi io).2 = write_true io) ∧
    ((td.interp chi (some b)).2 = some b ∨
      (td.interp chi (some b)).2 = some true) ∧
    ((td.interp chi none).2 = none) ∧
    ((tp.m_params.chi_part_min ≤ chi ∧ chi ≤ tp.m_params.chi_part_max) →
      ∀ io, (tp.interp chi u io).2 = io) ∧
    (∀ io, (tp.interp chi u io).2 = io ∨
      (tp.interp chi u io).2 = write_true io) ∧
    ((tp.interp chi u (some b)).2 = some b ∨
      (tp.interp chi u (some b)).2 = some true) ∧
    ((tp.interp chi u none).2 = none) := by
  have hd : ∀ io : Option Bool, (td.interp chi io).2 =
      out_after td.m_params.chi_part_min td.m_params.chi_part_max chi io :=
    fun _ => rfl
  have hp : ∀ io : Option Bool, (tp.interp chi u io).2 =
      out_after tp.m_params.chi_part_min tp.m_params.chi_part_max chi io :=
    fun io => photon_interp_out_component tp chi u io
  have hnone : ∀ pmin pmax : ℝ, out_after pmin pmax chi none = none := by
    intro pmin pmax
    unfold out_after
    split_ifs <;> rfl
  refine ⟨?_, ?_, ?_, ?_, ?_, ?_, ?_, ?_⟩
  · intro h io
    rw [hd]
    exact out_after_in_range _ _ _ h.1 h.2 io
  · intro io
    rw [hd]
    exact out_after_cases _ _ _ io
  · rcases out_after_cases td.m_params.chi_part_min td.m_params.chi_part_max
      chi (some b) with h | h
    · exact Or.inl (by rw [hd, h])
    · exact Or.inr (by rw [hd, h]; rfl)
  · rw [hd]
    exact hnone _ _
  · intro h io
    rw [hp]
    exact out_after_in_range _ _ _ h.1 h.2 io
  · intro io
    rw [hp]
    exact out_after_cases _ _ _ io
  · rcases out_after_cases tp.m_params.chi_part_min tp.m_params.chi_part_max
      chi (some b) with h | h
    · exact Or.inl (by rw [hp, h])
    · exact Or.inr (by rw [hp, h]; rfl)
  · rw [hp]
    exact hnone _ _

/-- Claim C10: the value returned by
`photon_emission_lookup_table::interp` is always the sampled fraction --
computed from the clamped coordinate only -- multiplied by the original,
unclamped `chi_part`: the saturated branch returns the original
`chi_part` (not `chi_part_max`), the index-0 branch returns
`frac_min * chi_part`, so the output scales linearly with an
out-of-range input. -/
theorem photon_interp_scales_with_chi (tp : photon_emission_lookup_table)
    (chi u : ℝ) (io : Option Bool) :
    (tp.interp chi u io).1 =
      photon_sample_frac tp
        (m_log (clamp_chi tp.m_params.chi_part_min tp.m_params.chi_part_max chi))
        (m_log (1 - u)) * chi ∧
    (photon_upper_frac_index tp
        (m_log (clamp_chi tp.m_params.chi_part_min tp.m_params.chi_part_max chi))
        (m_log (1 - u)) = 0 →
      (tp.interp chi u io).1 = tp.m_params.frac_min * chi) ∧
    (0 < photon_upper_frac_index tp
        (m_log (clamp_chi tp.m_params.chi_part_min tp.m_params.chi_part_max chi))
        (m_log (1 - u)) →
     photon_upper_frac_index tp
        (m_log (clamp_chi tp.m_params.chi_part_min tp.m_params.chi_part_max chi))
        (m_log (1 - u)) = tp.m_params.frac_how_many →
      (tp.interp chi u io).1 = chi) := by
  have hbr := photon_interp_val_branches tp chi u io
  refine ⟨?_, ?_, ?_⟩
  · rw [hbr]
    unfold photon_sample_frac
    dsimp only
    split_ifs
    · rfl
    · exact (one_mul chi).symm
    · rfl
  · intro h0
    rw [hbr, if_pos h0]
  · intro hpos hM
    rw [hbr, if_neg (Nat.pos_iff_ne_zero.1 hpos), if_pos hM]

/-- Claim C4: for both table kinds, `set_all_vals` with a vector whose
length differs from the grid's element count reports failure and leaves
the table -- stored samples and initialization flag alike -- entirely
unchanged. -/
theorem set_all_vals_shape_mismatch (td : dndt_lookup_table)
    (hdw : td.m_table.get_how_many_x = td.m_params.chi_part_how_many)
    (tp : photon_emission_lookup_table)
    (hpw1 : tp.m_table.how_many_x = tp.m_params.chi_part_how_many)
    (hpw2 : tp.m_table.how_many_y = tp.m_params.frac_how_many)
    (lowest_val : ℝ) (vals : List ℝ)
    (hbadd : vals.length ≠ td.m_params.chi_part_how_many)
    (hbadp : vals.length ≠
      tp.m_params.chi_part_how_many * tp.m_params.frac_how_many) :
    td.set_all_vals vals = (false, td) ∧
    tp.set_all_vals lowest_val vals = (false, tp) := by
  constructor
  · unfold dndt_lookup_table.set_all_vals
    rw [if_neg (by rw [hdw]; exact hbadd)]
  · unfold photon_emission_lookup_table.set_all_vals
    rw [if_neg (by rw [hpw1, hpw2]; exact hbadp)]

/-- Claim C5: for both table kinds, the byte-buffer constructor fails
with the truncated-data error whenever the buffer is shorter than
`1 + sizeof(params)` bytes, and fails with the format-mismatch error
whenever the buffer is long enough but its leading scalar-size tag
differs from `sizeof(RealType)` of the reading context; both failures
return no table, so no value is misread as table content. -/
theorem from_raw_error_detection (rs tag : ℕ) (raw rest : List Cell) :
    (cells_byte_size raw < 1 + sizeof_dndt_params rs →
      dndt_table_from_raw rs raw = .error .truncated) ∧
    (cells_byte_size raw < 1 + sizeof_photon_params rs →
      photon_table_from_raw rs raw = .error .truncated) ∧
    (tag ≠ rs →
      ¬ cells_byte_size (Cell.byte tag :: rest) < 1 + sizeof_dndt_params rs →
      dndt_table_from_raw rs (Cell.byte tag :: rest) =
        .error .formatMismatch) ∧
    (tag ≠ rs →
      ¬ cells_byte_size (Cell.byte tag :: rest) < 1 + sizeof_photon_params rs →
      photon_table_from_raw rs (Cell.byte tag :: rest) =
        .error .formatMismatch) := by
  refine ⟨?_, ?_, ?_, ?_⟩
  · intro h
    unfold dndt_table_from_raw
    rw [if_pos h]
  · intro h
    unfold photon_table_from_raw
    rw [if_pos h]
  · intro hne hsz
    unfold dndt_table_from_raw
    rw [if_neg hsz]
    simp [get_out_byte, except_ok_bind, hne]
  · intro hne hsz
    unfold photon_table_from_raw
    rw [if_neg hsz]
    simp [get_out_byte, except_ok_bind, hne]

/-- Claim C6: for both table kinds, `get_view` and `serialize` on an
uninitialized table fail immediately with the invalid-state error (and,
the model being pure, the table is untouched); on an initialized table
`get_view` succeeds and the view carries the same parameters over the
same backing samples. -/
theorem uninit_fails_and_view_shares (rs : ℕ) (td : dndt_lookup_table)
    (tp : photon_emission_lookup_table) :
    (td.m_init_flag = false →
      td.get_view = .error .invalidState ∧
      td.serialize rs = .error .invalidState) ∧
    (tp.m_init_flag = false →
      tp.get_view = .error .invalidState ∧
      tp.serialize rs = .error .invalidState) ∧
    (td.m_init_flag = true →
      td.m_table.values.length = td.m_params.chi_part_how_many →
      ∃ v, td.get_view = .ok v ∧ v.m_params = td.m_params ∧
        v.m_table.values = td.m_table.values) ∧
    (tp.m_init_flag = true →
      tp.m_table.values.length =
        tp.m_params.chi_part_how_many * tp.m_params.frac_how_many →
      ∃ v, tp.get_view = .ok v ∧ v.m_params = tp.m_params ∧
        v.m_table.values = tp.m_table.values) := by
  refine ⟨?_, ?_, ?_, ?_⟩
  · intro h
    constructor
    · unfold dndt_lookup_table.get_view
      rw [if_pos h]
    · unfold dndt_lookup_table.serialize
      rw [if_pos h]
  · intro h
    constructor
    · unfold photon_emission_lookup_table.get_view
      rw [if_pos h]
    · unfold photon_emission_lookup_table.serialize
      rw [if_pos h]
  · intro h hlen
    refine ⟨dndt_lookup_table.mk_of_vals td.m_params
      (td.m_table.values.take td.m_params.chi_part_how_many), ?_, rfl, ?_⟩
    · unfold dndt_lookup_table.get_view
      rw [if_neg (by rw [h]; exact fun hc => Bool.noConfusion hc)]
    · show (td.m_table.values.take td.m_params.chi_part_how_many) =
        td.m_table.values
      rw [← hlen]
      exact List.take_length td.m_table.values
  · intro h hlen
    refine ⟨photon_emission_lookup_table.mk_of_vals tp.m_params
      (tp.m_table.values.take
        (tp.m_params.chi_part_how_many * tp.m_params.frac_how_many)),
      ?_, rfl, ?_⟩
    · unfold photon_emission_lookup_table.get_view
      rw [if_neg (by rw [h]; exact fun hc => Bool.noConfusion hc)]
    · show (tp.m_table.values.take
        (tp.m_params.chi_part_how_many * tp.m_params.frac_how_many)) =
        tp.m_table.values
      rw [← hlen]
      exact List.take_length tp.m_table.values

/-- Claim C7: for an initialized owning table of either kind (built from
its parameters and a full value vector), the view returned by `get_view`
produces `interp` output identical to the owner's for every input --
including out-of-range `chi_part` on both sides and, for the
photon-emission kind, every uniform draw -- since it shares the same
parameters and the same underlying samples. -/
theorem view_interp_equivalent
    (pd : dndt_lookup_table_params) (dvals : List ℝ)
    (hd : dvals.length = pd.chi_part_how_many)
    (pp : photon_emission_lookup_table_params) (pvals : List ℝ)
    (hp : pvals.length = pp.chi_part_how_many * pp.frac_how_many) :
    (∃ v, (dndt_lookup_table.mk_of_vals pd dvals).get_view = .ok v ∧
      ∀ chi is_out, v.interp chi is_out =
        (dndt_lookup_table.mk_of_vals pd dvals).interp chi is_out) ∧
    (∃ v, (photon_emission_lookup_table.mk_of_vals pp pvals).get_view = .ok v ∧
      ∀ chi u is_out, v.interp chi u is_out =
        (photon_emission_lookup_table.mk_of_vals pp pvals).interp chi u is_out) := by
  constructor
  · refine ⟨dndt_lookup_table.mk_of_vals pd dvals, ?_, fun chi is_out => rfl⟩
    unfold dndt_lookup_table.get_view
    rw [if_neg (fun hc => Bool.noConfusion hc)]
    show Except.ok (dndt_lookup_table.mk_of_vals pd (dvals.take pd.chi_part_how_many)) = _
    rw [← hd, List.take_length]
  · refine ⟨photon_emission_lookup_table.mk_of_vals pp pvals, ?_,
      fun chi u is_out => rfl⟩
    unfold photon_emission_lookup_table.get_view
    rw [if_neg (fun hc => Bool.noConfusion hc)]
    show Except.ok (photon_emission_lookup_table.mk_of_vals pp
      (pvals.take (pp.chi_part_how_many * pp.frac_how_many))) = _
    rw [← hp, List.take_length]

/-- Claim C8: for every photon-emission table and every value vector of
the correct length, `set_all_vals` stores `log v` for each element `v`
except that an exactly-zero physical value is stored as the
smallest-finite stand-in `lowest_val` rather than the negative infinity
`log 0` would produce; it reports success and sets the initialization
flag. -/
theorem photon_set_all_vals_stores_log (tp : photon_emission_lookup_table)
    (lowest_val : ℝ) (vals : List ℝ)
    (hlen : vals.length = tp.m_table.how_many_x * tp.m_table.how_many_y) :
    (tp.set_all_vals lowest_val vals).1 = true ∧
    (tp.set_all_vals lowest_val vals).2.m_init_flag = true ∧
    (tp.set_all_vals lowest_val vals).2.m_table.values =
      vals.map (fun v => if v = 0 then lowest_val else m_log v) ∧
    ∀ i, i < vals.length →
      (tp.set_all_vals lowest_val vals).2.m_table.values.getD i 0 =
        (if vals.getD i 0 = 0 then lowest_val else m_log (vals.getD i 0)) := by
  have hres : tp.set_all_vals lowest_val vals = (true,
      ⟨tp.m_params, true,
        ⟨tp.m_table.x_min, tp.m_table.x_max, tp.m_table.y_min, tp.m_table.y_max,
         tp.m_table.how_many_x, tp.m_table.how_many_y,
         vals.map (fun v => if v = 0 then lowest_val else m_log v)⟩⟩) := by
    unfold photon_emission_lookup_table.set_all_vals
    rw [if_pos hlen]
  refine ⟨by rw [hres], by rw [hres], by rw [hres], ?_⟩
  intro i hi
  rw [hres]
  show (vals.map (fun v => if v = 0 then lowest_val else m_log v)).getD i 0 = _
  have hi2 : i < (vals.map (fun v => if v = 0 then lowest_val else m_log v)).length := by
    rw [List.length_map]
    exact hi
  rw [List.getD_eq_getElem?_getD, List.getElem?_eq_getElem hi2,
    List.getD_eq_getElem?_getD, List.getElem?_eq_getElem hi]
  simp [List.getElem_map]

/-- Witness for claim C2: the round-trip theorem applied to concrete
initialized tables of both kinds at scalar width 8. -/
theorem serialize_deserialize_roundtrip_witness :
    (∃ buf td2, witness_dndt_table.serialize 8 = .ok buf ∧
      dndt_table_from_raw 8 buf = .ok td2 ∧ td2.eqOp witness_dndt_table) ∧
    (∃ buf tp2, witness_photon_table.serialize 8 = .ok buf ∧
      photon_table_from_raw 8 buf = .ok tp2 ∧ tp2.eqOp witness_photon_table) :=
  serialize_deserialize_roundtrip 8 witness_dndt_table rfl
    witness_photon_table rfl rfl

/-- Witness for claim C3: the clamping theorem applied to a concrete
rate table, at argument 0 below its lower bound 1. -/
theorem dndt_interp_clamps_witness :
    ((0:ℝ) < witness_dndt_table.m_params.chi_part_min →
      (witness_dndt_table.interp 0 none).1 =
        (witness_dndt_table.interp witness_dndt_table.m_params.chi_part_min none).1 ∧
      (witness_dndt_table.interp 0 (some true)).2 = some true) ∧
    (witness_dndt_table.m_params.chi_part_max < 0 →
      (witness_dndt_table.interp 0 none).1 =
        (witness_dndt_table.interp witness_dndt_table.m_params.chi_part_max none).1 ∧
      (witness_dndt_table.interp 0 (some true)).2 = some true) :=
  dndt_interp_clamps witness_dndt_table (show (1:ℝ) ≤ 2 by norm_num) 0 none true

/-- Witness for claim C4: `set_all_vals` with an empty vector fails and
leaves both concrete tables unchanged. -/
theorem set_all_vals_shape_mismatch_witness :
    witness_dndt_table.set_all_vals [] = (false, witness_dndt_table) ∧
    witness_photon_table.set_all_vals 0 [] = (false, witness_photon_table) :=
  set_all_vals_shape_mismatch witness_dndt_table rfl witness_photon_table
    rfl rfl 0 [] (by decide) (by decide)

/-- Witness for claim C7: view equivalence on concrete tables of both
kinds. -/
theorem view_interp_equivalent_witness :
    (∃ v, (dndt_lookup_table.mk_of_vals ⟨1, 2, 2⟩ [0, 0]).get_view = .ok v ∧
      ∀ chi is_out, v.interp chi is_out =
        (dndt_lookup_table.mk_of_vals ⟨1, 2, 2⟩ [0, 0]).interp chi is_out) ∧
    (∃ v, (photon_emission_lookup_table.mk_of_vals
        ⟨1, 1, 1, 2, 2⟩ [0, 0, 0, 0]).get_view = .ok v ∧
      ∀ chi u is_out, v.interp chi u is_out =
        (photon_emission_lookup_table.mk_of_vals
          ⟨1, 1, 1, 2, 2⟩ [0, 0, 0, 0]).interp chi u is_out) :=
  view_interp_equivalent ⟨1, 2, 2⟩ [0, 0] rfl ⟨1, 1, 1, 2, 2⟩ [0, 0, 0, 0] rfl

/-- Witness for claim C8: importing four physical values, one of them
exactly zero, into the concrete photon-emission table. -/
theorem photon_set_all_vals_stores_log_witness :
    (witness_photon_table.set_all_vals (-5) [0, 1, 0, 3]).1 = true ∧
    (witness_photon_table.set_all_vals (-5) [0, 1, 0, 3]).2.m_init_flag = true ∧
    (witness_photon_table.set_all_vals (-5) [0, 1, 0, 3]).2.m_table.values =
      ([0, 1, 0, 3] : List ℝ).map (fun v => if v = 0 then -5 else m_log v) ∧
    ∀ i, i < ([0, 1, 0, 3] : List ℝ).length →
      (witness_photon_table.set_all_vals (-5) [0, 1, 0, 3]).2.m_table.values.getD i 0 =
        (if ([0, 1, 0, 3] : List ℝ).getD i 0 = 0 then -5
         else m_log (([0, 1, 0, 3] : List ℝ).getD i 0)) :=
  photon_set_all_vals_stores_log witness_photon_table (-5) [0, 1, 0, 3] rfl

/-- Witness for claim C1: the output-range theorem applied to the
concrete all-zero photon-emission table at `chi_part = 1`, `u = 0`. -/
theorem photon_interp_output_in_range_witness :
    (0 ≤ (witness_photon_table.interp 1 0 none).1 ∧
      (witness_photon_table.interp 1 0 none).1 ≤ 1) ∧
    (photon_upper_frac_index witness_photon_table
        (m_log (clamp_chi witness_photon_table.m_params.chi_part_min
          witness_photon_table.m_params.chi_part_max 1))
        (m_log (1 - 0)) = 0 →
      (witness_photon_table.interp 1 0 none).1 =
        witness_photon_table.m_params.frac_min * 1) ∧
    (photon_upper_frac_index witness_photon_table
        (m_log (clamp_chi witness_photon_table.m_params.chi_part_min
          witness_photon_table.m_params.chi_part_max 1))
        (m_log (1 - 0)) = witness_photon_table.m_params.frac_how_many →
      (witness_photon_table.interp 1 0 none).1 = 1) ∧
    (0 < photon_upper_frac_index witness_photon_table
        (m_log (clamp_chi witness_photon_table.m_params.chi_part_min
          witness_photon_table.m_params.chi_part_max 1))
        (m_log (1 - 0)) →
     photon_upper_frac_index witness_photon_table
        (m_log (clamp_chi witness_photon_table.m_params.chi_part_min
          witness_photon_table.m_params.chi_part_max 1))
        (m_log (1 - 0)) < witness_photon_table.m_params.frac_how_many →
      photon_log_frac witness_photon_table
        (m_log (clamp_chi witness_photon_table.m_params.chi_part_min
          witness_photon_table.m_params.chi_part_max 1))
        (m_log (1 - 0)) ≤ 0 ∧
      (witness_photon_table.interp 1 0 none).1 =
        m_exp (photon_log_frac witness_photon_table
          (m_log (clamp_chi witness_photon_table.m_params.chi_part_min
            witness_photon_table.m_params.chi_part_max 1))
          (m_log (1 - 0))) * 1) := by
  have hg : ∀ k : ℕ, ([0, 0, 0, 0] : List ℝ).getD k 0 = 0 := by
    intro k
    match k with
    | 0 => rfl
    | 1 => rfl
    | 2 => rfl
    | 3 => rfl
    | n+4 =>
        apply List.getD_eq_default
        simp
  have hconst : ∀ (x : ℝ) (j : ℕ),
      witness_photon_table.m_table.interp_first_coord x j = 0 := by
    intro x j
    unfold witness_photon_table photon_emission_lookup_table.mk_of_vals
      equispaced_2d_table.interp_first_coord equispaced_2d_table.get_val
    dsimp only
    simp only [hg]
    unfold linear_interp
    ring
  have hmono : ∀ x : ℝ, Monotone (fun i =>
      witness_photon_table.m_table.interp_first_coord x i) := by
    intro x a b hab
    show witness_photon_table.m_table.interp_first_coord x a ≤
      witness_photon_table.m_table.interp_first_coord x b
    rw [hconst, hconst]
  exact photon_interp_output_in_range ⟨1, 1, 1, 2, 2⟩ [0, 0, 0, 0]
    witness_photon_table rfl 1 0 hmono
    (show (0:ℝ) < 1 by norm_num) le_rfl
    (show (0:ℝ) < 1 by norm_num)
    (show (0:ℝ) < 1 by norm_num) (show (1:ℝ) ≤ 1 from le_rfl)
    (by decide)
